import Mathlib

/-!
Verification development for the premium-payment moderation bot
(`src/main.py`).  The Python source is shallowly embedded: pure helpers
become Lean functions, the MongoDB collection becomes an association
list threaded through the handlers, and every outbound side effect
(replies, user notifications, log-channel posts, message edits, database
writes) is recorded in an explicit effect trace.  Machine floats are
modelled as exact rationals and Python's `round` as round-half-to-even.
-/

namespace PaymentBot

/-! ## Decimal rendering and parsing helpers

`natDec` models Python's decimal rendering of a non-negative integer
(as used by the f-strings in the source); `decVal` is the inverse used
to read a day count back out of a duration label. -/

def digitChar (d : ℕ) : Char :=
  match d with
  | 0 => '0' | 1 => '1' | 2 => '2' | 3 => '3' | 4 => '4'
  | 5 => '5' | 6 => '6' | 7 => '7' | 8 => '8' | 9 => '9'
  | _ => '0'

def natDecAux (fuel : ℕ) (n : ℕ) : List Char :=
  match fuel with
  | 0 => []
  | f + 1 => if n = 0 then [] else natDecAux f (n / 10) ++ [digitChar (n % 10)]

/-- Decimal rendering of a natural number, as Python's `str`/f-string does. -/
def natDec (n : ℕ) : String :=
  if n = 0 then "0" else ⟨natDecAux (n + 1) n⟩

def intDec (i : ℤ) : String :=
  if i < 0 then "-" ++ natDec (-i).toNat else natDec i.toNat

/-- Value of a list of decimal digit characters. -/
def decVal (l : List Char) : ℕ :=
  l.foldl (fun a c => 10 * a + (c.toNat - 48)) 0

/-! ## Duration policy: `parse_time_period` (src/main.py lines 63-105) -/

/-- Round half to even on rationals, Python's `round` on the (exactly
represented) intermediate values of the interpolation. -/
def roundHE (q : ℚ) : ℤ :=
  if q - ⌊q⌋ < 1 / 2 then ⌊q⌋
  else if 1 / 2 < q - ⌊q⌋ then ⌊q⌋ + 1
  else if ⌊q⌋ % 2 = 0 then ⌊q⌋ else ⌊q⌋ + 1

/-- The tier table of `parse_time_period` (amount, days). -/
def tiers : List (ℚ × ℤ) :=
  [(5, 3), (10, 7), (25, 30), (60, 90), (100, 180), (150, 365)]

/-- `next((t for t in tiers if t["amount"] == amount), None)`. -/
def findExactTier (l : List (ℚ × ℤ)) (a : ℚ) : Option (ℚ × ℤ) :=
  match l with
  | [] => none
  | t :: rest => if t.1 = a then some t else findExactTier rest a

/-- The bracket-search loop: first adjacent pair `(lo, hi)` with
`lo.amount ≤ amount ≤ hi.amount`. -/
def findBracket (l : List (ℚ × ℤ)) (a : ℚ) : Option ((ℚ × ℤ) × (ℚ × ℤ)) :=
  match l with
  | x :: y :: rest =>
      if x.1 ≤ a ∧ a ≤ y.1 then some (x, y) else findBracket (y :: rest) a
  | _ => none

/-- The day count computed by `parse_time_period` before label rendering
(lines 65-96). -/
def totalDays (amount0 : ℚ) : ℤ :=
  let amount := max 5 (min 150 amount0)
  match findExactTier tiers amount with
  | some t => t.2
  | none =>
      if amount < 5 then max 1 (roundHE (amount / 5 * 3))
      else if 150 < amount then roundHE (amount / 150 * 365)
      else
        match findBracket tiers amount with
        | some (lo, hi) =>
            roundHE ((lo.2 : ℚ) + (amount - lo.1) / (hi.1 - lo.1) * ((hi.2 : ℚ) - (lo.2 : ℚ)))
        | none => 0

/-- Label rendering (lines 98-105). -/
def renderDuration (d : ℤ) : String :=
  if d ≥ 365 ∧ d % 365 = 0 then natDec (d / 365).toNat ++ "year"
  else if d ≥ 30 ∧ d % 30 = 0 then natDec (d / 30).toNat ++ "month"
  else if d > 0 then natDec d.toNat ++ "days"
  else "1day"

/-- `parse_time_period` (the spec's `computeDuration`). -/
def parse_time_period (amount : ℚ) : String :=
  renderDuration (totalDays amount)

/-- Read a duration label back into a day count: digits prefix times the
unit size of the suffix. -/
def daysOfLabel (s : String) : ℕ :=
  let ds := s.data.takeWhile Char.isDigit
  let suf := s.data.dropWhile Char.isDigit
  let n := decVal ds
  if suf = "year".data then n * 365
  else if suf = "month".data then n * 30
  else if suf = "days".data then n
  else if suf = "day".data then n
  else 0

/-! ## Claim validator (src/main.py lines 179-209)

The submission regex `(\S+)\s+(\d{12})\s+(\d+(\.\d+)?)` is matched with
`re.match`, i.e. anchored at the start of the text only.  All token
boundaries of this regex are forced (`\S`/`\s`/`\d` classes are
disjoint), so its backtracking search is equivalent to the maximal-munch
scan below.  Digits are modelled as ASCII digits. -/

/-- The optional-fraction amount token `\d+(\.\d+)?`: returns the
matched token and the remaining text. -/
def munchAmount (s : List Char) : Option (List Char × List Char) :=
  let ds := s.takeWhile Char.isDigit
  let s1 := s.dropWhile Char.isDigit
  if ds = [] then none
  else
    match s1 with
    | '.' :: s2 =>
        let fs := s2.takeWhile Char.isDigit
        if fs = [] then some (ds, s1)
        else some (ds ++ '.' :: fs, s2.dropWhile Char.isDigit)
    | _ => some (ds, s1)

/-- `re.match` of the submission regex: returns the three capture groups
(handle, 12-digit reference, amount token) and the unconsumed rest. -/
def reMatch (s : List Char) :
    Option (List Char × List Char × List Char × List Char) :=
  let h := s.takeWhile (fun c => !c.isWhitespace)
  let s1 := s.dropWhile (fun c => !c.isWhitespace)
  if h = [] then none
  else
    let w1 := s1.takeWhile Char.isWhitespace
    let s2 := s1.dropWhile Char.isWhitespace
    if w1 = [] then none
    else
      let r := s2.take 12
      let s3 := s2.drop 12
      if r.length = 12 ∧ r.all Char.isDigit then
        let w2 := s3.takeWhile Char.isWhitespace
        let s4 := s3.dropWhile Char.isWhitespace
        if w2 = [] then none
        else
          match munchAmount s4 with
          | some (a, rest) => some (h, r, a, rest)
          | none => none
      else none

/-- Numeric value of a matched amount token (Python `float`, modelled
exactly as a rational). -/
def amountVal (a : List Char) : ℚ :=
  let ds := a.takeWhile Char.isDigit
  match a.dropWhile Char.isDigit with
  | [] => (decVal ds : ℚ)
  | '.' :: fs => (decVal ds : ℚ) + (decVal fs : ℚ) / (10 : ℚ) ^ fs.length
  | _ => 0

/-- `match.group(1).lower().replace("@", "")`: lower-case and remove
every `'@'`. -/
def handleNorm (h : List Char) : List Char :=
  (h.map Char.toLower).filter (fun c => c ≠ '@')

inductive VResult
  | malformed
  | belowMin (q : ℚ)
  | aboveMax (q : ℚ)
  | ok (handle : String) (txn : String) (amount : ℚ)
deriving DecidableEq

/-- The validation part of `handle_payment_details` (lines 186-209):
regex match, handle normalization, amount bounds. -/
def validate (text : String) : VResult :=
  match reMatch text.data with
  | none => .malformed
  | some (h, r, a, _) =>
      let q := amountVal a
      if q < 5 then .belowMin q
      else if 150 < q then .aboveMax q
      else .ok ⟨handleNorm h⟩ ⟨r⟩ q

/-! ### Spec-side grammar definitions (for comparison with `validate`) -/

/-- The spec's amount token: digits with an optional fractional part. -/
def AmountTok (a : List Char) : Prop :=
  ∃ ds fs, ds ≠ [] ∧ (∀ c ∈ ds, c.isDigit = true) ∧
    ((a = ds ∧ fs = []) ∨
     (fs ≠ [] ∧ (∀ c ∈ fs, c.isDigit = true) ∧ a = ds ++ '.' :: fs))

/-- A prefix of the text decomposes as
`<handle> <12-digit-reference> <amount>`; this is what `re.match`
actually tests. -/
def PrefixGrammar (s : List Char) : Prop :=
  ∃ h w1 r w2 a rest,
    s = h ++ w1 ++ r ++ w2 ++ a ++ rest ∧
    h ≠ [] ∧ (∀ c ∈ h, c.isWhitespace = false) ∧
    w1 ≠ [] ∧ (∀ c ∈ w1, c.isWhitespace = true) ∧
    r.length = 12 ∧ (∀ c ∈ r, c.isDigit = true) ∧
    w2 ≠ [] ∧ (∀ c ∈ w2, c.isWhitespace = true) ∧
    AmountTok a

/-- Modelled from the spec: the whole raw text (not merely a prefix)
consists of the three grammar tokens, executable form.  Equals `reMatch`
success with an empty remainder. -/
def specGrammarB (text : String) : Bool :=
  match reMatch text.data with
  | some (_, _, _, rest) => rest = ([] : List Char)
  | none => false

/-- Modelled from the spec: normalize a handle by stripping one leading
`'@'` and lower-casing. -/
def specNormalizeHandle (h : List Char) : List Char :=
  (match h with
   | '@' :: t => t
   | _ => h).map Char.toLower

/-! ## Workflow model (src/main.py lines 107-444)

The MongoDB `payments` collection is an association list from record
identifiers to payment records.  Identifiers are modelled here as
opaque strings used identically on the insert and the query side; the
ObjectId-versus-string-rendering discrepancy at the storage boundary is
analysed separately with `MongoVal` below.  Times are abstract natural
numbers.  Every outbound action is recorded as an `Eff`; the messaging
gateway is an oracle saying which deliveries succeed. -/

structure User where
  id : ℤ
  full_name : String
deriving DecidableEq

structure Payment where
  user_telegram_id : ℤ
  telegram_username : String
  user_full_name : String
  txn_id : String
  amount_paid : ℚ
  premium_duration : String
  submission_date : ℕ
  status : String
  processed_by_bot : Bool
  processed_by : Option ℤ := none
  admin_processed_date : Option ℕ := none
  admin_note : Option String := none
  note_added_by : Option ℤ := none
  note_added_at : Option ℕ := none
deriving DecidableEq

abbrev Store := List (String × Payment)

/-- `context.user_data` keys used by the moderation flow. -/
structure Session where
  current_payment_id : Option String := none
  rejecting_admin_id : Option ℤ := none
  noting_admin_id : Option ℤ := none
deriving DecidableEq

def clearSession (_ : Session) : Session := {}

inductive Eff
  | reply (text : String)
  | send (chat : ℤ) (text : String)
  | sendErr (chat : ℤ) (text : String)
  | logch (text : String) (buttons : List (List String))
  | logchErr (text : String)
  | editMsg (text : String) (buttons : List (List String))
  | dbInsert (id : String)
  | dbUpdate (id : String)
deriving DecidableEq

/-- Effects that reach the messaging gateway (anything that is not a
database access). -/
def Eff.isOutbound : Eff → Bool
  | .dbInsert _ => false
  | .dbUpdate _ => false
  | _ => true

/-- Delivery oracle for the messaging gateway. -/
structure Gateway where
  sendOk : ℤ → String → Bool
  logOk : String → Bool

/-- `log_to_channel` (lines 107-118): a failed channel send is caught
and logged locally. -/
def log_to_channel (gw : Gateway) (msg : String)
    (buttons : List (List String)) : List Eff :=
  if gw.logOk msg then [.logch msg buttons] else [.logchErr msg]

/-- `notify_user` (lines 120-127): a failed user send is caught and
escalated to the log channel. -/
def notify_user (gw : Gateway) (uid : ℤ) (msg : String) : List Eff :=
  if gw.sendOk uid msg then [.send uid msg]
  else .sendErr uid msg ::
    log_to_channel gw ("⚠️ Failed to notify user " ++ intDec uid ++ ": delivery failure") []

/-- `create_payment_buttons` (lines 129-140), as the callback data of
the keyboard rows. -/
def create_payment_buttons (pid : String) : List (List String) :=
  [["approve_" ++ pid, "reject_" ++ pid], ["note_" ++ pid]]

/-- `find_one({"_id": pid})`. -/
def find_one : Store → String → Option Payment
  | [], _ => none
  | e :: rest, pid => if e.1 = pid then some e.2 else find_one rest pid

/-- `update_one({"_id": pid}, {"$set": ...})`: updates the first
matching record. -/
def update_one : Store → String → (Payment → Payment) → Store
  | [], _, _ => []
  | e :: rest, pid, f =>
      if e.1 = pid then (e.1, f e.2) :: rest else e :: update_one rest pid f

/-- `find_one({"txn_id": txn})` used by the duplicate check. -/
def dupCheck : Store → String → Bool
  | [], _ => false
  | e :: rest, txn => if e.2.txn_id = txn then true else dupCheck rest txn

/-- `insert_one` with a caller-chosen fresh identifier. -/
def insertPayment (st : Store) (pid : String) (p : Payment) : Store :=
  st ++ [(pid, p)]

/-- Number of stored records carrying a given transaction reference. -/
def countTxn (st : Store) (txn : String) : ℕ :=
  st.countP (fun e => e.2.txn_id = txn)

/-- `update_payment_status` (lines 142-156).  The boolean is
`modified_count > 0`, true exactly when a record matched.  Python's
`if note:` is false for `None` and for the empty string. -/
def update_payment_status (st : Store) (pid : String) (status : String)
    (admin : ℤ) (note : Option String) (now : ℕ) : Store × Bool :=
  let f := fun p =>
    { p with
      status := status
      admin_processed_date := some now
      processed_by := some admin
      admin_note :=
        match note with
        | some s => if s = "" then p.admin_note else some s
        | none => p.admin_note }
  (update_one st pid f, (find_one st pid).isSome)

/-! ### Decorative string rendering used in outbound messages -/

/-- Python `str.replace` (all occurrences, left to right), fuelled. -/
def replaceSubAux (pat rep : List Char) : ℕ → List Char → List Char
  | 0, s => s
  | _ + 1, [] => []
  | f + 1, c :: rest =>
      if (c :: rest).take pat.length = pat ∧ pat ≠ [] then
        rep ++ replaceSubAux pat rep f (rest.drop (pat.length - 1))
      else c :: replaceSubAux pat rep f rest

def strReplace (s pat rep : String) : String :=
  ⟨replaceSubAux pat.data rep.data s.data.length s.data⟩

/-- `.replace('days', ' Days').replace('month', ' Month').replace('year', ' Year')`. -/
def prettyDur (d : String) : String :=
  strReplace (strReplace (strReplace d "days" " Days") "month" " Month") "year" " Year"

/-- Decimal-ish rendering of a rational for message text (numeric
display only; Python would print a float). -/
def qStr (q : ℚ) : String :=
  if q.den = 1 then intDec q.num else intDec q.num ++ "/" ++ natDec q.den

/-- `user.mention_html()`. -/
def mentionHtml (u : User) : String :=
  "<a href=\"tg://user?id=" ++ intDec u.id ++ "\">" ++ u.full_name ++ "</a>"

def invalidFormatMsg : String :=
  "❌ Invalid format. Please send your details in this format:\n`YourUsername 123456789012 10` (Username, Transaction ID, Amount)"

def belowMinMsg : String := "❌ Minimum amount is ₹5. Please pay at least ₹5."

def aboveMaxMsg : String :=
  "❌ Maximum amount for automatic activation is ₹150. For higher amounts, please contact @Mr_HKs directly."

def dupMsg : String :=
  "❌ This Transaction ID has already been submitted.\nIf you believe this is an error, please contact @Mr_HKs."

def screenshotLine (shot : Option String) (submitted : Bool) : String :=
  match shot with
  | some l => "📌 Please send payment proof here: " ++ l
  | none =>
      if submitted then
        "📌 Please forward your payment screenshot to @Mr_HKs to complete activation."
      else "📌 Make sure to send the payment screenshot to @Mr_HKs after submitting details."

/-- The `/add_premium` provisioning command string (line 242). -/
def addPremiumCommand (uid : ℤ) (dur : String) : String :=
  "/add_premium " ++ intDec uid ++ " " ++ dur

def submitUserMsg (u : User) (handle txn : String) (amount : ℚ)
    (dur : String) (shot : Option String) : String :=
  "✅ Thank you " ++ mentionHtml u ++ "! Your payment details have been received:\n👤 Username: @"
    ++ handle ++ "\n💳 Transaction ID: <code>" ++ txn ++ "</code>\n💰 Amount: ₹"
    ++ qStr amount ++ "\n⏳ Premium Period: " ++ prettyDur dur ++ "\n\n"
    ++ screenshotLine shot true

def submitLogMsg (u : User) (pid handle txn : String) (amount : ℚ)
    (dur : String) (now : ℕ) (afBot : String) : String :=
  "🔔 **New Payment Submitted**\n🆔 Payment ID: <code>" ++ pid ++ "</code>\n👤 User: @"
    ++ handle ++ " (<code>" ++ intDec u.id ++ "</code>)\n📛 Name: " ++ u.full_name
    ++ "\n💳 Txn ID: <code>" ++ txn ++ "</code>\n💰 Amount: ₹" ++ qStr amount
    ++ "\n⏳ Period: " ++ dur ++ "\n📅 Submitted: " ++ natDec now
    ++ "\n\n🤖 Command for @" ++ afBot ++ ":\n<code>"
    ++ addPremiumCommand u.id dur ++ "</code>"

def approvedUserMsg (p : Payment) : String :=
  "🎉 Your payment has been approved!\n\n🔹 Transaction ID: <code>" ++ p.txn_id
    ++ "</code>\n🔹 Amount: ₹" ++ qStr p.amount_paid ++ "\n🔹 Premium Period: "
    ++ prettyDur p.premium_duration
    ++ "\n\nYour premium access should be activated shortly. Thank you!"

def rejectedUserMsg (p : Payment) (reason : String) : String :=
  "⚠️ Your payment has been rejected.\n\n🔹 Transaction ID: <code>" ++ p.txn_id
    ++ "</code>\n🔹 Amount: ₹" ++ qStr p.amount_paid ++ "\n🔹 Reason: " ++ reason
    ++ "\n\nPlease contact @Mr_HKs if you believe this is an error."

def dupLogMsg (txn handle : String) (uid : ℤ) : String :=
  "⚠️ Duplicate Txn ID: `" ++ txn ++ "` submitted by @" ++ handle
    ++ " (User ID: `" ++ intDec uid ++ "`)."

def approvedLogMsg (actor : User) (pid : String) (p : Payment) : String :=
  "✅ Payment approved by " ++ mentionHtml actor ++ " (ID: " ++ intDec actor.id
    ++ ")\n🆔 Payment ID: <code>" ++ pid ++ "</code>\n👤 User: @"
    ++ p.telegram_username ++ " (<code>" ++ intDec p.user_telegram_id ++ "</code>)"

def rejectedLogMsg (admin_id : ℤ) (pid : String) (p : Payment) (reason : String) : String :=
  "❌ Payment rejected by admin (ID: " ++ intDec admin_id
    ++ ")\n🆔 Payment ID: <code>" ++ pid ++ "</code>\n👤 User: @"
    ++ p.telegram_username ++ " (<code>" ++ intDec p.user_telegram_id
    ++ "</code>)\n📝 Reason: " ++ reason

def noteLogMsg (admin_id : ℤ) (pid : String) (p : Payment) (note : String) : String :=
  "📝 Note added to payment by admin (ID: " ++ intDec admin_id
    ++ ")\n🆔 Payment ID: <code>" ++ pid ++ "</code>\n👤 User: @"
    ++ p.telegram_username ++ " (<code>" ++ intDec p.user_telegram_id
    ++ "</code>)\n📝 Note: " ++ note

/-! ### The handlers -/

/-- `handle_payment_details` (lines 179-285): validate, deduplicate,
store, confirm to the submitter, notify the admin channel. -/
def handle_payment_details (st : Store) (u : User) (text : String)
    (now : ℕ) (newId : String) (shot : Option String) (afBot : String)
    (gw : Gateway) : Store × List Eff :=
  match validate text with
  | .malformed => (st, [.reply invalidFormatMsg])
  | .belowMin _ => (st, [.reply belowMinMsg])
  | .aboveMax _ => (st, [.reply aboveMaxMsg])
  | .ok handle txn amount =>
      if dupCheck st txn then
        (st, [.reply dupMsg] ++ log_to_channel gw (dupLogMsg txn handle u.id) [])
      else
        let dur := parse_time_period amount
        let rec0 : Payment :=
          { user_telegram_id := u.id
            telegram_username := handle
            user_full_name := u.full_name
            txn_id := txn
            amount_paid := amount
            premium_duration := dur
            submission_date := now
            status := "pending_admin_verification"
            processed_by_bot := false }
        let st1 := insertPayment st newId rec0
        (st1,
          [.dbInsert newId, .reply (submitUserMsg u handle txn amount dur shot)]
            ++ log_to_channel gw (submitLogMsg u newId handle txn amount dur now afBot)
                (create_payment_buttons newId))

/-- `data.split("_")`, Python semantics (split at every separator). -/
def splitCharAux (sep : Char) : List Char → List Char → List (List Char)
  | [], acc => [acc.reverse]
  | c :: rest, acc =>
      if c = sep then acc.reverse :: splitCharAux sep rest []
      else splitCharAux sep rest (c :: acc)

def splitChar (sep : Char) (l : List Char) : List (List Char) :=
  splitCharAux sep l []

/-- `data.split("_")[1]`: the claim identifier decoded from a callback
token. -/
def parseCallbackId (data : String) : String :=
  ⟨(splitChar '_' data.data).getD 1 []⟩

def strStarts (s p : String) : Bool :=
  if s.data.take p.data.length = p.data then true else false

/-- `button_callback` (lines 287-372). -/
def button_callback (admins : List ℤ) (st : Store) (sess : Session)
    (actor : User) (data : String) (msgText : String) (now : ℕ)
    (gw : Gateway) : Store × Session × List Eff :=
  if actor.id ∉ admins then
    (st, sess, [.editMsg "❌ You are not authorized to perform this action." []])
  else
    let payment_id := parseCallbackId data
    if strStarts data "approve_" then
      match find_one st payment_id with
      | none => (st, sess, [.editMsg "❌ Payment record not found." []])
      | some payment =>
          if payment.status ≠ "pending_admin_verification" then
            (st, sess, [.editMsg ("⚠️ Payment is already " ++ payment.status ++ ".") []])
          else
            let r := update_payment_status st payment_id "approved" actor.id none now
            if r.2 = false then
              (r.1, sess, [.dbUpdate payment_id,
                .editMsg "❌ Failed to update payment status." []])
            else
              (r.1, sess,
                .dbUpdate payment_id ::
                  notify_user gw payment.user_telegram_id (approvedUserMsg payment)
                  ++ [.editMsg (msgText ++ "\n\n✅ Approved by admin " ++ mentionHtml actor) []]
                  ++ log_to_channel gw (approvedLogMsg actor payment_id payment) [])
    else if strStarts data "reject_" then
      (st,
        { sess with
          current_payment_id := some payment_id
          rejecting_admin_id := some actor.id },
        [.editMsg "Please enter the reason for rejecting this payment:"
          [["cancel_" ++ payment_id]]])
    else if strStarts data "note_" then
      (st,
        { sess with
          current_payment_id := some payment_id
          noting_admin_id := some actor.id },
        [.editMsg "Please enter your note for this payment:"
          [["cancel_" ++ payment_id]]])
    else if strStarts data "cancel_" then
      match find_one st payment_id with
      | some payment =>
          (st, sess, [.editMsg ("Action cancelled. Payment remains " ++ payment.status
            ++ ".\n\nOriginal message:\n\n" ++ msgText) []])
      | none => (st, sess, [.editMsg "Action cancelled." []])
    else (st, sess, [])

/-- `handle_admin_reply` (lines 374-444).  Note: the rejection branch
performs no status check before `update_payment_status`, and the
session is cleared at the end of the `current_payment_id` block (but
not on the record-not-found early return). -/
def handle_admin_reply (admins : List ℤ) (st : Store) (sess : Session)
    (sender : User) (text : String) (now : ℕ) (gw : Gateway) :
    Store × Session × List Eff :=
  if sender.id ∉ admins then (st, sess, [])
  else
    match sess.current_payment_id with
    | none => (st, sess, [])
    | some payment_id =>
        match find_one st payment_id with
        | none => (st, sess, [.reply "❌ Payment record not found."])
        | some payment =>
            match sess.rejecting_admin_id with
            | some admin_id =>
                let r := update_payment_status st payment_id "rejected" admin_id (some text) now
                if r.2 then
                  (r.1, clearSession sess,
                    .dbUpdate payment_id ::
                      notify_user gw payment.user_telegram_id (rejectedUserMsg payment text)
                      ++ log_to_channel gw (rejectedLogMsg admin_id payment_id payment text) []
                      ++ [.reply "✅ Payment rejected successfully. User has been notified."])
                else
                  (r.1, clearSession sess,
                    [.dbUpdate payment_id, .reply "❌ Failed to update payment status."])
            | none =>
                match sess.noting_admin_id with
                | some admin_id =>
                    let st2 := update_one st payment_id (fun p =>
                      { p with
                        admin_note := some text
                        note_added_by := some admin_id
                        note_added_at := some now })
                    (st2, clearSession sess,
                      [.dbUpdate payment_id, .reply "✅ Note added to payment record."]
                        ++ log_to_channel gw (noteLogMsg admin_id payment_id payment text) [])
                | none => (st, clearSession sess, [])

/-! ## Application dispatch (src/main.py lines 518-531)

python-telegram-bot runs, per update, the first handler of a dispatch
group whose filter matches; all five handlers are registered in the
default group 0 in the order of the `add_handler` calls. -/

inductive Upd
  | msg (sender : ℤ) (text : String)
  | cb (sender : ℤ) (data : String)
deriving DecidableEq

inductive Handler
  | start
  | checkPayments
  | paymentDetails
  | buttonCb
  | adminReply
deriving DecidableEq

def isCommandText (t : String) : Bool := strStarts t "/"

def handlerMatches (admins : List ℤ) : Handler → Upd → Bool
  | .start, .msg _ t => strStarts t "/start"
  | .checkPayments, .msg _ t => strStarts t "/check_payments"
  | .paymentDetails, .msg _ t => !isCommandText t
  | .buttonCb, .cb _ _ => true
  | .adminReply, .msg s _ => admins.contains s
  | _, _ => false

/-- The `add_handler` registration order of `main`. -/
def registeredHandlers : List Handler :=
  [.start, .checkPayments, .paymentDetails, .buttonCb, .adminReply]

/-- Which handler receives an update. -/
def dispatch (admins : List ℤ) (u : Upd) : Option Handler :=
  registeredHandlers.find? (fun h => handlerMatches admins h u)

/-! ## Identifier typing at the storage boundary (for the callback
lookup analysis)

`insert_one` stores the record under a BSON ObjectId; the button
handler interpolates that id into the callback token (its hex string
rendering) and queries `{"_id": <string>}`, a BSON string.  BSON
equality is type-sensitive. -/

inductive MongoVal
  | oid (hex : String)
  | str (s : String)
deriving DecidableEq

/-- The f-string rendering used when the id is embedded in a callback
token or message. -/
def mongoRender : MongoVal → String
  | .oid h => h
  | .str s => s

abbrev BStore := List (MongoVal × Payment)

def bFind : BStore → MongoVal → Option Payment
  | [], _ => none
  | e :: rest, k => if e.1 = k then some e.2 else bFind rest k

def bInsert (st : BStore) (k : MongoVal) (p : Payment) : BStore :=
  st ++ [(k, p)]

/-- The callback token built by `create_payment_buttons` for a stored
record. -/
def approveToken (k : MongoVal) : String := "approve_" ++ mongoRender k

/-- The query key the button handler uses: the decoded token fragment,
as a BSON string. -/
def callbackQueryKey (data : String) : MongoVal :=
  MongoVal.str (parseCallbackId data)

/-! ## Interleaved duplicate submissions

`handle_payment_details` separates the duplicate check (`find_one`)
from the insert (`insert_one`); the two-phase run below interleaves two
submissions of the same reference: both checks happen before either
insert, as can occur with two bot processes sharing the database. -/

def interleavedDoubleSubmit (txn : String) (rec1 rec2 : Payment)
    (id1 id2 : String) : Store :=
  let s0 : Store := []
  let c1 := dupCheck s0 txn
  let c2 := dupCheck s0 txn
  let s1 := if c1 then s0 else insertPayment s0 id1 rec1
  let s2 := if c2 then s1 else insertPayment s1 id2 rec2
  s2

/-- A substring test used to state where the provisioning command is
emitted. -/
def listStarts (p s : List Char) : Bool :=
  if s.take p.length = p then true else false

def containsSubAux (pat : List Char) : List Char → Bool
  | [] => if pat = [] then true else false
  | c :: rest => if listStarts pat (c :: rest) then true else containsSubAux pat rest

def containsSub (s pat : String) : Bool := containsSubAux pat.data s.data

/-- Does an effect trace emit a given string anywhere on an outbound
surface? -/
def traceEmits (tr : List Eff) (pat : String) : Bool :=
  tr.any (fun e =>
    match e with
    | .reply t => containsSub t pat
    | .send _ t => containsSub t pat
    | .sendErr _ t => containsSub t pat
    | .logch t _ => containsSub t pat
    | .logchErr t => containsSub t pat
    | .editMsg t _ => containsSub t pat
    | _ => false)

/-! ## Analysis artifacts for the duration policy -/

def clampQ (x lo hi : ℚ) : ℚ := max lo (min x hi)

/-- The piecewise-linear interpolant of the tier table, written as a sum
of clamped increments (one per segment, each with non-negative slope). -/
def pwSum (a : ℚ) : ℚ :=
  3 + 4 / 5 * (clampQ a 5 10 - 5) + 23 / 15 * (clampQ a 10 25 - 10)
    + 12 / 7 * (clampQ a 25 60 - 25) + 9 / 4 * (clampQ a 60 100 - 60)
    + 37 / 10 * (clampQ a 100 150 - 100)

/-! ## Concrete fixtures used by witnesses and counterexamples -/

/-- Gateway oracle on which every delivery succeeds. -/
def gwAll : Gateway := ⟨fun _ _ => true, fun _ => true⟩

/-- Gateway oracle on which every delivery fails. -/
def gwNone : Gateway := ⟨fun _ _ => false, fun _ => false⟩

def uAlice : User := ⟨111, "Alice"⟩

def mod7 : User := ⟨7, "Mod Seven"⟩

/-- An already approved claim record. -/
def payApproved : Payment :=
  { user_telegram_id := 111
    telegram_username := "alice"
    user_full_name := "Alice"
    txn_id := "123456789012"
    amount_paid := 25
    premium_duration := "1month"
    submission_date := 0
    status := "approved"
    processed_by_bot := false
    processed_by := some 5
    admin_processed_date := some 1 }

/-- A pending claim record as created by a `"alice 123456789012 25"`
submission. -/
def payPending : Payment :=
  { user_telegram_id := 111
    telegram_username := "alice"
    user_full_name := "Alice"
    txn_id := "123456789012"
    amount_paid := 25
    premium_duration := "1month"
    submission_date := 0
    status := "pending_admin_verification"
    processed_by_bot := false }

def sessRejecting : Session :=
  { current_payment_id := some "p1", rejecting_admin_id := some 7 }

/-! # Theorems

## Duration policy lemmas -/

theorem roundHE_intCast (n : ℤ) : roundHE (n : ℚ) = n := by
  simp [roundHE, Int.floor_intCast]

theorem roundHE_ge_floor (q : ℚ) : ⌊q⌋ ≤ roundHE q := by
  simp only [roundHE]; split_ifs <;> omega

theorem roundHE_le_floor_add_one (q : ℚ) : roundHE q ≤ ⌊q⌋ + 1 := by
  simp only [roundHE]; split_ifs <;> omega

theorem roundHE_mono {q r : ℚ} (h : q ≤ r) : roundHE q ≤ roundHE r := by
  rcases lt_or_le ⌊q⌋ ⌊r⌋ with hf | hf
  · have h1 := roundHE_le_floor_add_one q
    have h2 := roundHE_ge_floor r
    omega
  · have heq : ⌊q⌋ = ⌊r⌋ := le_antisymm (Int.floor_le_floor h) hf
    have hsub : q - (⌊r⌋ : ℚ) ≤ r - (⌊r⌋ : ℚ) := by linarith
    simp only [roundHE, heq]
    split_ifs <;> first | omega | linarith

theorem clampQ_mono {a b : ℚ} (h : a ≤ b) (lo hi : ℚ) :
    clampQ a lo hi ≤ clampQ b lo hi :=
  max_le_max le_rfl (min_le_min h le_rfl)

theorem clampQ_left {x lo hi : ℚ} (h : x ≤ lo) : clampQ x lo hi = lo :=
  max_eq_left ((min_le_left x hi).trans h)

theorem clampQ_right {x lo hi : ℚ} (hlo : lo ≤ hi) (h : hi ≤ x) :
    clampQ x lo hi = hi := by
  rw [clampQ, min_eq_right h, max_eq_right hlo]

theorem clampQ_mid {x lo hi : ℚ} (h1 : lo ≤ x) (h2 : x ≤ hi) :
    clampQ x lo hi = x := by
  rw [clampQ, min_eq_left h2, max_eq_right h1]

theorem pwSum_mono {a b : ℚ} (h : a ≤ b) : pwSum a ≤ pwSum b := by
  have h1 := clampQ_mono h 5 10
  have h2 := clampQ_mono h 10 25
  have h3 := clampQ_mono h 25 60
  have h4 := clampQ_mono h 60 100
  have h5 := clampQ_mono h 100 150
  simp only [pwSum]
  linarith

theorem findExactTier_none {a : ℚ} (h1 : (5 : ℚ) ≠ a) (h2 : (10 : ℚ) ≠ a)
    (h3 : (25 : ℚ) ≠ a) (h4 : (60 : ℚ) ≠ a) (h5 : (100 : ℚ) ≠ a)
    (h6 : (150 : ℚ) ≠ a) : findExactTier tiers a = none := by
  simp [tiers, findExactTier, h1, h2, h3, h4, h5, h6]

theorem findBracket_seg1 {a : ℚ} (h1 : 5 ≤ a) (h2 : a ≤ 10) :
    findBracket tiers a = some ((5, 3), (10, 7)) := by
  simp [tiers, findBracket, h1, h2]

theorem findBracket_seg2 {a : ℚ} (h1 : 10 < a) (h2 : a ≤ 25) :
    findBracket tiers a = some ((10, 7), (25, 30)) := by
  have hn1 : ¬((5 : ℚ) ≤ a ∧ a ≤ 10) := by rintro ⟨_, hx⟩; linarith
  simp [tiers, findBracket, hn1, h1.le, h2]

theorem findBracket_seg3 {a : ℚ} (h1 : 25 < a) (h2 : a ≤ 60) :
    findBracket tiers a = some ((25, 30), (60, 90)) := by
  have hn1 : ¬((5 : ℚ) ≤ a ∧ a ≤ 10) := by rintro ⟨_, hx⟩; linarith
  have hn2 : ¬((10 : ℚ) ≤ a ∧ a ≤ 25) := by rintro ⟨_, hx⟩; linarith
  simp [tiers, findBracket, hn1, hn2, h1.le, h2]

theorem findBracket_seg4 {a : ℚ} (h1 : 60 < a) (h2 : a ≤ 100) :
    findBracket tiers a = some ((60, 90), (100, 180)) := by
  have hn1 : ¬((5 : ℚ) ≤ a ∧ a ≤ 10) := by rintro ⟨_, hx⟩; linarith
  have hn2 : ¬((10 : ℚ) ≤ a ∧ a ≤ 25) := by rintro ⟨_, hx⟩; linarith
  have hn3 : ¬((25 : ℚ) ≤ a ∧ a ≤ 60) := by rintro ⟨_, hx⟩; linarith
  simp [tiers, findBracket, hn1, hn2, hn3, h1.le, h2]

theorem findBracket_seg5 {a : ℚ} (h1 : 100 < a) (h2 : a ≤ 150) :
    findBracket tiers a = some ((100, 180), (150, 365)) := by
  have hn1 : ¬((5 : ℚ) ≤ a ∧ a ≤ 10) := by rintro ⟨_, hx⟩; linarith
  have hn2 : ¬((10 : ℚ) ≤ a ∧ a ≤ 25) := by rintro ⟨_, hx⟩; linarith
  have hn3 : ¬((25 : ℚ) ≤ a ∧ a ≤ 60) := by rintro ⟨_, hx⟩; linarith
  have hn4 : ¬((60 : ℚ) ≤ a ∧ a ≤ 100) := by rintro ⟨_, hx⟩; linarith
  simp [tiers, findBracket, hn1, hn2, hn3, hn4, h1.le, h2]

theorem pwSum_five : pwSum 5 = 3 := by
  have c1 : clampQ (5 : ℚ) 5 10 = 5 := clampQ_mid (by norm_num) (by norm_num)
  have c2 : clampQ (5 : ℚ) 10 25 = 10 := clampQ_left (by norm_num)
  have c3 : clampQ (5 : ℚ) 25 60 = 25 := clampQ_left (by norm_num)
  have c4 : clampQ (5 : ℚ) 60 100 = 60 := clampQ_left (by norm_num)
  have c5 : clampQ (5 : ℚ) 100 150 = 100 := clampQ_left (by norm_num)
  rw [pwSum, c1, c2, c3, c4, c5]; norm_num

set_option maxHeartbeats 2000000 in
/-- On the clamped domain, the code's day count is the rounded value of
the piecewise-linear interpolant. -/
theorem totalDays_eq_pwSum {a : ℚ} (h5 : 5 ≤ a) (h150 : a ≤ 150) :
    totalDays a = roundHE (pwSum a) := by
  have hA : max (5 : ℚ) (min 150 a) = a := by
    rw [min_eq_right h150, max_eq_right h5]
  rw [totalDays, hA]
  by_cases e1 : a = 5
  · subst e1
    have hf : findExactTier tiers 5 = some (5, 3) := by norm_num [tiers, findExactTier]
    rw [hf, pwSum_five]
    rw [show (3 : ℚ) = ((3 : ℤ) : ℚ) by norm_num, roundHE_intCast]
  by_cases e2 : a = 10
  · subst e2
    have hf : findExactTier tiers 10 = some (10, 7) := by norm_num [tiers, findExactTier]
    have hp : pwSum 10 = ((7 : ℤ) : ℚ) := by
      rw [pwSum, clampQ_mid (by norm_num) (by norm_num), clampQ_mid (by norm_num) (by norm_num),
        clampQ_left (by norm_num), clampQ_left (by norm_num), clampQ_left (by norm_num)]
      norm_num
    rw [hf, hp, roundHE_intCast]
  by_cases e3 : a = 25
  · subst e3
    have hf : findExactTier tiers 25 = some (25, 30) := by norm_num [tiers, findExactTier]
    have hp : pwSum 25 = ((30 : ℤ) : ℚ) := by
      rw [pwSum, clampQ_right (by norm_num) (by norm_num), clampQ_mid (by norm_num) (by norm_num),
        clampQ_mid (by norm_num) (by norm_num), clampQ_left (by norm_num), clampQ_left (by norm_num)]
      norm_num
    rw [hf, hp, roundHE_intCast]
  by_cases e4 : a = 60
  · subst e4
    have hf : findExactTier tiers 60 = some (60, 90) := by norm_num [tiers, findExactTier]
    have hp : pwSum 60 = ((90 : ℤ) : ℚ) := by
      rw [pwSum, clampQ_right (by norm_num) (by norm_num), clampQ_right (by norm_num) (by norm_num),
        clampQ_mid (by norm_num) (by norm_num), clampQ_mid (by norm_num) (by norm_num),
        clampQ_left (by norm_num)]
      norm_num
    rw [hf, hp, roundHE_intCast]
  by_cases e5 : a = 100
  · subst e5
    have hf : findExactTier tiers 100 = some (100, 180) := by norm_num [tiers, findExactTier]
    have hp : pwSum 100 = ((180 : ℤ) : ℚ) := by
      rw [pwSum, clampQ_right (by norm_num) (by norm_num), clampQ_right (by norm_num) (by norm_num),
        clampQ_right (by norm_num) (by norm_num), clampQ_mid (by norm_num) (by norm_num),
        clampQ_mid (by norm_num) (by norm_num)]
      norm_num
    rw [hf, hp, roundHE_intCast]
  by_cases e6 : a = 150
  · subst e6
    have hf : findExactTier tiers 150 = some (150, 365) := by norm_num [tiers, findExactTier]
    have hp : pwSum 150 = ((365 : ℤ) : ℚ) := by
      rw [pwSum, clampQ_right (by norm_num) (by norm_num), clampQ_right (by norm_num) (by norm_num),
        clampQ_right (by norm_num) (by norm_num), clampQ_right (by norm_num) (by norm_num),
        clampQ_mid (by norm_num) (by norm_num)]
      norm_num
    rw [hf, hp, roundHE_intCast]
  have hnone : findExactTier tiers a = none :=
    findExactTier_none (Ne.symm e1) (Ne.symm e2) (Ne.symm e3) (Ne.symm e4)
      (Ne.symm e5) (Ne.symm e6)
  rw [hnone]
  have hnlt : ¬(a < 5) := not_lt.mpr h5
  have hngt : ¬(150 < a) := not_lt.mpr h150
  rw [if_neg hnlt, if_neg hngt]
  rcases lt_or_le a 10 with h10 | h10
  · have hl : 5 < a := lt_of_le_of_ne h5 (Ne.symm e1)
    rw [findBracket_seg1 h5 h10.le]
    have hp : pwSum a = 3 + (a - 5) / (10 - 5) * (7 - 3) := by
      rw [pwSum, clampQ_mid h5 h10.le, clampQ_left h10.le, clampQ_left (by linarith),
        clampQ_left (by linarith), clampQ_left (by linarith)]
      ring
    rw [hp]; congr 1
  rcases lt_or_le a 25 with h25 | h25
  · have hl : 10 < a := lt_of_le_of_ne h10 (Ne.symm e2)
    rw [findBracket_seg2 hl h25.le]
    have hp : pwSum a = 7 + (a - 10) / (25 - 10) * (30 - 7) := by
      rw [pwSum, clampQ_right (by norm_num) h10, clampQ_mid h10 h25.le,
        clampQ_left h25.le, clampQ_left (by linarith), clampQ_left (by linarith)]
      ring
    rw [hp]; congr 1
  rcases lt_or_le a 60 with h60 | h60
  · have hl : 25 < a := lt_of_le_of_ne h25 (Ne.symm e3)
    rw [findBracket_seg3 hl h60.le]
    have hp : pwSum a = 30 + (a - 25) / (60 - 25) * (90 - 30) := by
      rw [pwSum, clampQ_right (by norm_num) (by linarith), clampQ_right (by norm_num) h25,
        clampQ_mid h25 h60.le, clampQ_left h60.le, clampQ_left (by linarith)]
      ring
    rw [hp]; congr 1
  rcases lt_or_le a 100 with h100 | h100
  · have hl : 60 < a := lt_of_le_of_ne h60 (Ne.symm e4)
    rw [findBracket_seg4 hl h100.le]
    have hp : pwSum a = 90 + (a - 60) / (100 - 60) * (180 - 90) := by
      rw [pwSum, clampQ_right (by norm_num) (by linarith), clampQ_right (by norm_num) (by linarith),
        clampQ_right (by norm_num) h60, clampQ_mid h60 h100.le, clampQ_left h100.le]
      ring
    rw [hp]; congr 1
  · have hl : 100 < a := lt_of_le_of_ne h100 (Ne.symm e5)
    rw [findBracket_seg5 hl h150]
    have hp : pwSum a = 180 + (a - 100) / (150 - 100) * (365 - 180) := by
      rw [pwSum, clampQ_right (by norm_num) (by linarith), clampQ_right (by norm_num) (by linarith),
        clampQ_right (by norm_num) (by linarith), clampQ_right (by norm_num) h100,
        clampQ_mid h100 h150]
      ring
    rw [hp]; congr 1

/-! ## Decimal rendering lemmas -/

theorem digitChar_isDigit (d : ℕ) : (digitChar d).isDigit = true := by
  unfold digitChar
  split <;> rfl

theorem digitChar_toNat {d : ℕ} (h : d < 10) : (digitChar d).toNat - 48 = d := by
  interval_cases d <;> rfl

theorem natDecAux_digits :
    ∀ (fuel n : ℕ), ∀ c ∈ natDecAux fuel n, c.isDigit = true := by
  intro fuel
  induction fuel with
  | zero => intro n c hc; simp [natDecAux] at hc
  | succ f ih =>
      intro n c hc
      rw [natDecAux] at hc
      by_cases h0 : n = 0
      · simp [h0] at hc
      · rw [if_neg h0] at hc
        rcases List.mem_append.1 hc with h1 | h1
        · exact ih _ _ h1
        · rw [List.mem_singleton] at h1
          subst h1
          exact digitChar_isDigit _

theorem natDecAux_foldl :
    ∀ (fuel n acc : ℕ), n ≤ fuel →
      (natDecAux fuel n).foldl (fun a c => 10 * a + (c.toNat - 48)) acc
        = acc * 10 ^ (natDecAux fuel n).length + n := by
  intro fuel
  induction fuel with
  | zero =>
      intro n acc h
      interval_cases n
      simp [natDecAux]
  | succ f ih =>
      intro n acc h
      by_cases h0 : n = 0
      · simp [natDecAux, h0]
      · rw [natDecAux, if_neg h0, List.foldl_append]
        have hn : n / 10 ≤ f := by omega
        rw [ih _ _ hn]
        have hmod : (digitChar (n % 10)).toNat - 48 = n % 10 :=
          digitChar_toNat (Nat.mod_lt _ (by norm_num))
        simp only [List.foldl_cons, List.foldl_nil, List.length_append,
          List.length_cons, List.length_nil, hmod]
        rw [pow_succ, ← mul_assoc]
        generalize acc * 10 ^ (natDecAux f (n / 10)).length = t
        omega

theorem decVal_natDec (n : ℕ) : decVal (natDec n).data = n := by
  by_cases h0 : n = 0
  · subst h0; rfl
  · rw [natDec, if_neg h0]
    show decVal (natDecAux (n + 1) n) = n
    rw [decVal, natDecAux_foldl (n + 1) n 0 (by omega)]
    simp

theorem natDec_digits (n : ℕ) : ∀ c ∈ (natDec n).data, c.isDigit = true := by
  by_cases h0 : n = 0
  · subst h0
    intro c hc
    have hd : ("0" : String).data = ['0'] := rfl
    rw [natDec, if_pos rfl, hd, List.mem_singleton] at hc
    subst hc; rfl
  · rw [natDec, if_neg h0]
    exact natDecAux_digits _ _

/-- `takeWhile`/`dropWhile` split at a forced boundary. -/
theorem takeWhile_append_of {p : Char → Bool} :
    ∀ (x y : List Char), (∀ c ∈ x, p c = true) →
      (∀ c, y.head? = some c → p c = false) →
      (x ++ y).takeWhile p = x ∧ (x ++ y).dropWhile p = y := by
  intro x
  induction x with
  | nil =>
      intro y _ hy
      cases y with
      | nil => exact ⟨rfl, rfl⟩
      | cons c t =>
          have hc := hy c rfl
          constructor
          · simp [List.takeWhile_cons, hc]
          · simp [List.dropWhile_cons, hc]
  | cons a t ih =>
      intro y hx hy
      have ha : p a = true := hx a (by simp)
      have iht := ih y (fun c hc => hx c (by simp [hc])) hy
      constructor
      · simp [List.takeWhile_cons, ha, iht.1]
      · simp [List.dropWhile_cons, ha, iht.2]

theorem mem_takeWhile_pred {p : Char → Bool} :
    ∀ (l : List Char), ∀ c ∈ l.takeWhile p, p c = true := by
  intro l
  induction l with
  | nil => intro c hc; simp at hc
  | cons a t ih =>
      intro c hc
      rw [List.takeWhile_cons] at hc
      by_cases ha : p a
      · rw [if_pos ha] at hc
        rcases List.mem_cons.1 hc with h1 | h1
        · subst h1; exact ha
        · exact ih _ h1
      · rw [if_neg ha] at hc; simp at hc

theorem daysOfLabel_year (n : ℕ) : daysOfLabel (natDec n ++ "year") = n * 365 := by
  have hsplit := @takeWhile_append_of Char.isDigit (natDec n).data "year".data
    (natDec_digits n)
    (by intro c hc; rw [show ("year" : String).data.head? = some 'y' from rfl] at hc
        cases hc; rfl)
  simp only [daysOfLabel, String.data_append, hsplit.1, hsplit.2, decVal_natDec]
  rfl

theorem daysOfLabel_month (n : ℕ) : daysOfLabel (natDec n ++ "month") = n * 30 := by
  have hsplit := @takeWhile_append_of Char.isDigit (natDec n).data "month".data
    (natDec_digits n)
    (by intro c hc; rw [show ("month" : String).data.head? = some 'm' from rfl] at hc
        cases hc; rfl)
  simp only [daysOfLabel, String.data_append, hsplit.1, hsplit.2, decVal_natDec]
  rfl

theorem daysOfLabel_days (n : ℕ) : daysOfLabel (natDec n ++ "days") = n := by
  have hsplit := @takeWhile_append_of Char.isDigit (natDec n).data "days".data
    (natDec_digits n)
    (by intro c hc; rw [show ("days" : String).data.head? = some 'd' from rfl] at hc
        cases hc; rfl)
  simp only [daysOfLabel, String.data_append, hsplit.1, hsplit.2, decVal_natDec]
  rfl

/-- The rendered label reads back to exactly the day count it was
rendered from. -/
theorem daysOfLabel_renderDuration {d : ℤ} (hd : 0 < d) :
    daysOfLabel (renderDuration d) = d.toNat := by
  rw [renderDuration]
  split_ifs with h1 h2
  · rw [daysOfLabel_year]
    omega
  · rw [daysOfLabel_month]
    omega
  · rw [daysOfLabel_days]

theorem totalDays_five : totalDays 5 = 3 := by
  have hA : max (5 : ℚ) (min 150 5) = 5 := by norm_num
  have hf : findExactTier tiers 5 = some (5, 3) := by norm_num [tiers, findExactTier]
  rw [totalDays, hA, hf]

theorem totalDays_ten : totalDays 10 = 7 := by
  have hA : max (5 : ℚ) (min 150 10) = 10 := by norm_num
  have hf : findExactTier tiers 10 = some (10, 7) := by norm_num [tiers, findExactTier]
  rw [totalDays, hA, hf]

theorem totalDays_twentyFive : totalDays 25 = 30 := by
  have hA : max (5 : ℚ) (min 150 25) = 25 := by norm_num
  have hf : findExactTier tiers 25 = some (25, 30) := by norm_num [tiers, findExactTier]
  rw [totalDays, hA, hf]

theorem totalDays_oneFifty : totalDays 150 = 365 := by
  have hA : max (5 : ℚ) (min 150 150) = 150 := by norm_num
  have hf : findExactTier tiers 150 = some (150, 365) := by norm_num [tiers, findExactTier]
  rw [totalDays, hA, hf]

theorem totalDays_twoHundred : totalDays 200 = 365 := by
  have hA : max (5 : ℚ) (min 150 200) = 150 := by norm_num
  have hf : findExactTier tiers 150 = some (150, 365) := by norm_num [tiers, findExactTier]
  rw [totalDays, hA, hf]

theorem totalDays_one : totalDays 1 = 3 := by
  have hA : max (5 : ℚ) (min 150 1) = 5 := by norm_num
  have hf : findExactTier tiers 5 = some (5, 3) := by norm_num [tiers, findExactTier]
  rw [totalDays, hA, hf]

set_option maxHeartbeats 1000000 in
theorem totalDays_seventeen : totalDays 17 = 18 := by
  have hA : max (5 : ℚ) (min 150 17) = 17 := by norm_num
  have h1 : findExactTier tiers 17 = none := by norm_num [tiers, findExactTier]
  have h2 : findBracket tiers 17 = some ((10, 7), (25, 30)) := by
    norm_num [tiers, findBracket]
  have h3 : ¬((17 : ℚ) < 5) := by norm_num
  have h4 : ¬((150 : ℚ) < 17) := by norm_num
  have hq : ((7 : ℤ) : ℚ) + (17 - 10) / (25 - 10) * (((30 : ℤ) : ℚ) - ((7 : ℤ) : ℚ))
      = 266 / 15 := by push_cast; norm_num
  have hfl : ⌊(266 / 15 : ℚ)⌋ = 17 := by
    rw [Int.floor_eq_iff]; norm_num
  have hr : roundHE (266 / 15) = 18 := by
    rw [roundHE, hfl]; norm_num
  rw [totalDays, hA, h1]
  simp only [h2, if_neg h3, if_neg h4]
  rw [hq, hr]

/-- Claim C7: the duration policy matches the spec's reference values:
amounts 5, 10, 25, 150 give the labels 3days, 7days, 1month, 1year;
200 clamps to 150 (1year); 1 clamps to 5 (3days); and the interpolated
amount 17 yields 18 days, strictly between the 10-tier's 7 days and the
25-tier's 30 days. -/
theorem claim_C7 :
    parse_time_period 5 = "3days" ∧ parse_time_period 10 = "7days" ∧
    parse_time_period 25 = "1month" ∧ parse_time_period 150 = "1year" ∧
    parse_time_period 200 = "1year" ∧ parse_time_period 1 = "3days" ∧
    daysOfLabel (parse_time_period 17) = 18 ∧
    daysOfLabel (parse_time_period 10) = 7 ∧
    daysOfLabel (parse_time_period 25) = 30 ∧
    7 < 18 ∧ 18 < 30 := by
  refine ⟨?_, ?_, ?_, ?_, ?_, ?_, ?_, ?_, ?_, ?_, ?_⟩
  · rw [parse_time_period, totalDays_five]; decide
  · rw [parse_time_period, totalDays_ten]; decide
  · rw [parse_time_period, totalDays_twentyFive]; decide
  · rw [parse_time_period, totalDays_oneFifty]; decide
  · rw [parse_time_period, totalDays_twoHundred]; decide
  · rw [parse_time_period, totalDays_one]; decide
  · rw [parse_time_period, totalDays_seventeen]; decide
  · rw [parse_time_period, totalDays_ten]; decide
  · rw [parse_time_period, totalDays_twentyFive]; decide
  · decide
  · decide

/-- Claim C8: the duration policy is total on all rational amounts
(out-of-range amounts behave exactly as their clamped value), its day
count is monotonically non-decreasing on the clamped domain [5, 150],
and on that domain the returned label converts back to the (positive)
day count it was computed from. -/
theorem claim_C8 :
    (∀ a : ℚ, parse_time_period a = parse_time_period (max 5 (min 150 a))) ∧
    (∀ a b : ℚ, 5 ≤ a → a ≤ b → b ≤ 150 → totalDays a ≤ totalDays b) ∧
    (∀ a : ℚ, 5 ≤ a → a ≤ 150 →
      0 < totalDays a ∧ daysOfLabel (parse_time_period a) = (totalDays a).toNat) := by
  refine ⟨?_, ?_, ?_⟩
  · intro a
    have hc1 : (5 : ℚ) ≤ max 5 (min 150 a) := le_max_left _ _
    have hc2 : max (5 : ℚ) (min 150 a) ≤ 150 := max_le (by norm_num) (min_le_left _ _)
    rw [parse_time_period, parse_time_period]
    congr 1
    rw [totalDays, totalDays, min_eq_right hc2, max_eq_right hc1]
  · intro a b ha hab hb
    rw [totalDays_eq_pwSum ha (hab.trans hb), totalDays_eq_pwSum (ha.trans hab) hb]
    exact roundHE_mono (pwSum_mono hab)
  · intro a ha hb
    have h3 : (3 : ℤ) ≤ totalDays a := by
      rw [totalDays_eq_pwSum ha hb]
      have hp : (((3 : ℤ) : ℚ)) ≤ pwSum a := by
        have := pwSum_mono ha
        rw [pwSum_five] at this
        push_cast
        linarith
      have := roundHE_mono hp
      rwa [roundHE_intCast] at this
    refine ⟨by omega, ?_⟩
    rw [parse_time_period, daysOfLabel_renderDuration (by omega)]

/-- Claim C8 witness: the theorem instantiated at amounts 6 and 7. -/
theorem claim_C8_witness :
    totalDays 6 ≤ totalDays 7 ∧
    (0 < totalDays 17 ∧ daysOfLabel (parse_time_period 17) = (totalDays 17).toNat) ∧
    parse_time_period 300 = parse_time_period (max 5 (min 150 300)) :=
  ⟨claim_C8.2.1 6 7 (by norm_num) (by norm_num) (by norm_num),
   claim_C8.2.2 17 (by norm_num) (by norm_num),
   claim_C8.1 300⟩


/-! ## Validator lemmas: the regex scan against the grammar -/

theorem digit_not_ws {c : Char} (h : c.isDigit = true) :
    c.isWhitespace = false := by
  cases hb : c.isWhitespace
  · rfl
  · exfalso
    simp only [Char.isWhitespace, Bool.or_eq_true, decide_eq_true_eq] at hb
    rcases hb with ((h1 | h1) | h1) | h1 <;>
      (subst h1; exact absurd h (by decide))

theorem munchAmount_sound {s a rest : List Char}
    (h : munchAmount s = some (a, rest)) : s = a ++ rest ∧ AmountTok a := by
  simp only [munchAmount] at h
  by_cases hds : s.takeWhile Char.isDigit = []
  · simp [hds] at h
  · rw [if_neg hds] at h
    split at h
    next s2 heq =>
      by_cases hfs : s2.takeWhile Char.isDigit = []
      · rw [if_pos hfs] at h
        injection h with h1
        injection h1 with ha hrest
        subst ha; subst hrest
        refine ⟨(List.takeWhile_append_dropWhile _ _).symm, ?_⟩
        exact ⟨_, [], hds, mem_takeWhile_pred s, Or.inl ⟨rfl, rfl⟩⟩
      · rw [if_neg hfs] at h
        injection h with h1
        injection h1 with ha hrest
        subst ha; subst hrest
        constructor
        · calc s = s.takeWhile Char.isDigit ++ s.dropWhile Char.isDigit :=
                (List.takeWhile_append_dropWhile _ _).symm
            _ = s.takeWhile Char.isDigit ++ '.' :: s2 := by rw [heq]
            _ = s.takeWhile Char.isDigit
                  ++ '.' :: (s2.takeWhile Char.isDigit ++ s2.dropWhile Char.isDigit) := by
                rw [List.takeWhile_append_dropWhile]
            _ = (s.takeWhile Char.isDigit ++ '.' :: s2.takeWhile Char.isDigit)
                  ++ s2.dropWhile Char.isDigit := by
                simp [List.append_assoc]
        · exact ⟨_, _, hds, mem_takeWhile_pred s,
            Or.inr ⟨hfs, mem_takeWhile_pred s2, rfl⟩⟩
    next hne =>
      injection h with h1
      injection h1 with ha hrest
      subst ha; subst hrest
      refine ⟨(List.takeWhile_append_dropWhile _ _).symm, ?_⟩
      exact ⟨_, [], hds, mem_takeWhile_pred s, Or.inl ⟨rfl, rfl⟩⟩

theorem munchAmount_isSome_of_head {s : List Char} {c : Char}
    (h : s.head? = some c) (hd : c.isDigit = true) :
    (munchAmount s).isSome := by
  cases s with
  | nil => simp at h
  | cons x t =>
      have hx : x = c := by simpa using h
      subst hx
      have hne : (x :: t).takeWhile Char.isDigit ≠ [] := by
        rw [List.takeWhile_cons, if_pos hd]
        simp
      simp only [munchAmount]
      rw [if_neg hne]
      split
      · split <;> simp
      · simp

theorem reMatch_sound {s h r a rest : List Char}
    (hm : reMatch s = some (h, r, a, rest)) : PrefixGrammar s := by
  simp only [reMatch] at hm
  by_cases c1 : s.takeWhile (fun c => !c.isWhitespace) = []
  · simp [c1] at hm
  · rw [if_neg c1] at hm
    by_cases c2 : (s.dropWhile (fun c => !c.isWhitespace)).takeWhile Char.isWhitespace = []
    · simp [c2] at hm
    · rw [if_neg c2] at hm
      by_cases c3 : (((s.dropWhile (fun c => !c.isWhitespace)).dropWhile Char.isWhitespace).take 12).length = 12
          ∧ (((s.dropWhile (fun c => !c.isWhitespace)).dropWhile Char.isWhitespace).take 12).all Char.isDigit
      · rw [if_pos c3] at hm
        by_cases c4 : ((((s.dropWhile (fun c => !c.isWhitespace)).dropWhile Char.isWhitespace).drop 12).takeWhile Char.isWhitespace) = []
        · simp [c4] at hm
        · rw [if_neg c4] at hm
          cases hma : munchAmount ((((s.dropWhile (fun c => !c.isWhitespace)).dropWhile Char.isWhitespace).drop 12).dropWhile Char.isWhitespace) with
          | none => rw [hma] at hm; simp at hm
          | some pr =>
              obtain ⟨a0, rest0⟩ := pr
              rw [hma] at hm
              simp only [Option.some.injEq, Prod.mk.injEq] at hm
              obtain ⟨hh, hr, ha, hrest⟩ := hm
              subst hh; subst hr; subst ha; subst hrest
              obtain ⟨hdec, hamt⟩ := munchAmount_sound hma
              refine ⟨s.takeWhile (fun c => !c.isWhitespace),
                (s.dropWhile (fun c => !c.isWhitespace)).takeWhile Char.isWhitespace,
                ((s.dropWhile (fun c => !c.isWhitespace)).dropWhile Char.isWhitespace).take 12,
                (((s.dropWhile (fun c => !c.isWhitespace)).dropWhile Char.isWhitespace).drop 12).takeWhile Char.isWhitespace,
                a0, rest0, ?_, c1, ?_, c2, ?_, c3.1, ?_, c4, ?_, hamt⟩
              · simp only [List.append_assoc]
                rw [← hdec, List.takeWhile_append_dropWhile, List.take_append_drop,
                  List.takeWhile_append_dropWhile, List.takeWhile_append_dropWhile]
              · intro c hc
                have := mem_takeWhile_pred _ c hc
                simpa using this
              · intro c hc
                exact mem_takeWhile_pred _ c hc
              · intro c hc
                have := List.all_eq_true.1 c3.2 c hc
                simpa using this
              · intro c hc
                exact mem_takeWhile_pred _ c hc
      · rw [if_neg c3] at hm
        simp at hm

theorem reMatch_complete {s : List Char} (hp : PrefixGrammar s) :
    (reMatch s).isSome := by
  obtain ⟨h, w1, r, w2, a, rest, hs, hh, hhw, hw1, hw1w, hrl, hrd, hw2, hw2w, hamt⟩ := hp
  obtain ⟨wc, wt, rfl⟩ : ∃ wc wt, w1 = wc :: wt := by
    cases w1 with
    | nil => exact absurd rfl hw1
    | cons x t => exact ⟨x, t, rfl⟩
  obtain ⟨rc, rt, rfl⟩ : ∃ rc rt, r = rc :: rt := by
    cases r with
    | nil => simp at hrl
    | cons x t => exact ⟨x, t, rfl⟩
  obtain ⟨dc, dt, hah⟩ : ∃ dc dt, a = dc :: dt ∧ dc.isDigit = true := by
    obtain ⟨ds, fs, hds, hdsd, hcase⟩ := hamt
    cases ds with
    | nil => exact absurd rfl hds
    | cons x t =>
        have hx : x.isDigit = true := hdsd x (by simp)
        rcases hcase with ⟨haeq, _⟩ | ⟨_, _, haeq⟩
        · exact ⟨x, t, by rw [haeq], hx⟩
        · exact ⟨x, t ++ '.' :: fs, by rw [haeq]; simp, hx⟩
  obtain ⟨hae, hdcd⟩ := hah
  have hwcw : wc.isWhitespace = true := hw1w wc (by simp)
  have hrcd : rc.isDigit = true := hrd rc (by simp)
  have hs' : s = h ++ ((wc :: wt) ++ ((rc :: rt) ++ (w2 ++ (a ++ rest)))) := by
    rw [hs]; simp [List.append_assoc]
  have st1 := @takeWhile_append_of (fun c => !c.isWhitespace) h
      ((wc :: wt) ++ ((rc :: rt) ++ (w2 ++ (a ++ rest))))
      (fun c hc => by simp [hhw c hc])
      (fun c hc => by
        simp only [List.cons_append, List.head?_cons, Option.some.injEq] at hc
        subst hc; simp [hwcw])
  have st2 := @takeWhile_append_of Char.isWhitespace (wc :: wt)
      ((rc :: rt) ++ (w2 ++ (a ++ rest)))
      (fun c hc => hw1w c hc)
      (fun c hc => by
        simp only [List.cons_append, List.head?_cons, Option.some.injEq] at hc
        subst hc; exact digit_not_ws hrcd)
  have st4 := @takeWhile_append_of Char.isWhitespace w2 (a ++ rest)
      (fun c hc => hw2w c hc)
      (fun c hc => by
        rw [hae] at hc
        simp only [List.cons_append, List.head?_cons, Option.some.injEq] at hc
        subst hc; exact digit_not_ws hdcd)
  have hma : (munchAmount (a ++ rest)).isSome := by
    refine @munchAmount_isSome_of_head (a ++ rest) dc ?_ hdcd
    rw [hae]; simp
  rw [reMatch, hs']
  rw [st1.1, st1.2]
  rw [if_neg hh]
  rw [st2.1, st2.2]
  rw [if_neg hw1]
  have hrl' : (rc :: rt).length = 12 := hrl
  have htk : (((rc :: rt) ++ (w2 ++ (a ++ rest))).take 12) = rc :: rt := by
    rw [← hrl', List.take_left]
  have hdr : (((rc :: rt) ++ (w2 ++ (a ++ rest))).drop 12) = w2 ++ (a ++ rest) := by
    rw [← hrl', List.drop_left]
  rw [htk, hdr]
  rw [if_pos ⟨hrl', List.all_eq_true.2 hrd⟩]
  rw [st4.1, st4.2]
  rw [if_neg hw2]
  obtain ⟨pr, hpr⟩ := Option.isSome_iff_exists.1 hma
  obtain ⟨a0, rest0⟩ := pr
  rw [hpr]
  rfl

theorem reMatch_isSome_iff (s : List Char) :
    (reMatch s).isSome ↔ PrefixGrammar s := by
  constructor
  · intro hs
    obtain ⟨pr, hpr⟩ := Option.isSome_iff_exists.1 hs
    obtain ⟨h, r, a, rest⟩ := pr
    exact reMatch_sound hpr
  · exact reMatch_complete

/-- Claim C6 (amended): the validator succeeds exactly when a PREFIX of
the raw text matches `<handle> <12-digit-reference> <amount>` (the
regex is not end-anchored, so trailing text is ignored); the handle is
normalized by lower-casing and removing EVERY `'@'` (not only a leading
one); amounts below 5 give the minimum failure, amounts above 150 the
maximum failure (checked in that order); and every validation failure
leaves the store untouched. -/
theorem claim_C6_amended :
    (∀ t : String, validate t = .malformed ↔ ¬ PrefixGrammar t.data) ∧
    (∀ (t : String) (h r a rest : List Char), reMatch t.data = some (h, r, a, rest) →
      (validate t = .belowMin (amountVal a) ↔ amountVal a < 5) ∧
      (validate t = .aboveMax (amountVal a) ↔ ¬ amountVal a < 5 ∧ 150 < amountVal a) ∧
      (¬ amountVal a < 5 → ¬ 150 < amountVal a →
        validate t = .ok ⟨handleNorm h⟩ ⟨r⟩ (amountVal a))) ∧
    (∀ st u t now nid shot af gw,
      (validate t = .malformed ∨ (∃ q, validate t = .belowMin q) ∨
        (∃ q, validate t = .aboveMax q)) →
      (handle_payment_details st u t now nid shot af gw).1 = st) := by
  refine ⟨?_, ?_, ?_⟩
  · intro t
    rw [← reMatch_isSome_iff]
    cases hm : reMatch t.data with
    | none => simp [validate, hm]
    | some g =>
        obtain ⟨h, r, a, rest⟩ := g
        simp only [validate, hm]
        constructor
        · intro hv
          split_ifs at hv <;> simp at hv
        · intro hv
          simp [hm] at hv
  · intro t h r a rest hm
    simp only [validate, hm]
    refine ⟨?_, ?_, ?_⟩
    · constructor
      · intro hv
        split_ifs at hv with h1 h2 <;> first | exact h1 | simp at hv
      · intro h1
        rw [if_pos h1]
    · constructor
      · intro hv
        split_ifs at hv with h1 h2 <;> first | exact ⟨h1, h2⟩ | simp at hv
      · rintro ⟨h1, h2⟩
        rw [if_neg h1, if_pos h2]
    · intro h1 h2
      rw [if_neg h1, if_neg h2]
  · intro st u t now nid shot af gw hv
    rcases hv with hv | ⟨q, hv⟩ | ⟨q, hv⟩ <;> simp [handle_payment_details, hv]

/-- Claim C6 counterexample: the code accepts `"alice 123456789012 25
junk"` although the full text does not match the grammar (the regex is
only prefix-anchored), and it normalizes `"@Ali@ce"` to `"alice"`
although stripping one leading `'@'` and lower-casing gives
`"ali@ce"`. -/
theorem claim_C6_counterexample :
    validate "alice 123456789012 25 junk" = .ok "alice" "123456789012" 25 ∧
    specGrammarB "alice 123456789012 25 junk" = false ∧
    validate "@Ali@ce 123456789012 25" = .ok "alice" "123456789012" 25 ∧
    specNormalizeHandle ("@Ali@ce".data) = "ali@ce".data ∧
    ("alice" : String) ≠ "ali@ce" := by
  refine ⟨?_, ?_, ?_, ?_, ?_⟩ <;> decide

/-- Claim C6 witness: the amended theorem applied at concrete inputs:
a 3-rupee submission fails with the minimum-amount failure, and a
malformed submission leaves an empty store empty. -/
theorem claim_C6_witness :
    validate "alice 123456789012 3" = .belowMin (amountVal ("3".data)) ∧
    (handle_payment_details [] uAlice "alice 123 25" 0 "p9" none "AF" gwAll).1 = [] := by
  constructor
  · exact (claim_C6_amended.2.1 "alice 123456789012 3" ("alice".data)
      ("123456789012".data) ("3".data) [] (by decide)).1.mpr (by decide)
  · exact claim_C6_amended.2.2 [] uAlice "alice 123 25" 0 "p9" none "AF" gwAll
      (Or.inl (by decide))

/-! ## Workflow lemmas -/

theorem strStarts_append (p rest : String) : strStarts (p ++ rest) p = true := by
  rw [strStarts, String.data_append]
  rw [if_pos (List.take_left _ _)]

theorem splitCharAux_no_sep {sep : Char} :
    ∀ (l acc : List Char), sep ∉ l →
      splitCharAux sep l acc = [acc.reverse ++ l] := by
  intro l
  induction l with
  | nil => intro acc _; simp [splitCharAux]
  | cons c t ih =>
      intro acc hmem
      have hc : ¬ c = sep := fun hcc => hmem (by simp [hcc])
      rw [splitCharAux, if_neg hc, ih _ (fun hcc => hmem (by simp [hcc]))]
      simp

theorem parseCallbackId_approve {pid : String} (h : '_' ∉ pid.data) :
    parseCallbackId ("approve_" ++ pid) = pid := by
  have hd : ("approve_" ++ pid).data
      = 'a' :: 'p' :: 'p' :: 'r' :: 'o' :: 'v' :: 'e' :: '_' :: pid.data := by
    rw [String.data_append]
    rfl
  rw [parseCallbackId, hd, splitChar]
  simp only [splitCharAux, reduceIte]
  rw [splitCharAux_no_sep _ _ h]
  rfl

theorem find_one_update_one {pid : String} {f : Payment → Payment} :
    ∀ {st : Store} {p : Payment}, find_one st pid = some p →
      find_one (update_one st pid f) pid = some (f p) := by
  intro st
  induction st with
  | nil => intro p hp; simp [find_one] at hp
  | cons e rest ih =>
      intro p hp
      by_cases he : e.1 = pid
      · rw [find_one, if_pos he] at hp
        injection hp with hp'
        subst hp'
        rw [update_one, if_pos he, find_one, if_pos he]
      · rw [find_one, if_neg he] at hp
        rw [update_one, if_neg he, find_one, if_neg he]
        exact ih hp

/-- Unfolding of a successful approve-button press on a pending claim. -/
theorem button_callback_approve_pending
    {admins : List ℤ} {st : Store} {sess : Session} {actor : User} {pid : String}
    {payment : Payment} {msgText : String} {now : ℕ} {gw : Gateway}
    (hadm : actor.id ∈ admins) (hpid : '_' ∉ pid.data)
    (hfind : find_one st pid = some payment)
    (hstat : payment.status = "pending_admin_verification") :
    button_callback admins st sess actor ("approve_" ++ pid) msgText now gw
      = ((update_payment_status st pid "approved" actor.id none now).1, sess,
         .dbUpdate pid ::
           notify_user gw payment.user_telegram_id (approvedUserMsg payment)
           ++ [.editMsg (msgText ++ "\n\n✅ Approved by admin " ++ mentionHtml actor) []]
           ++ log_to_channel gw (approvedLogMsg actor pid payment) []) := by
  simp only [button_callback]
  rw [if_neg (not_not_intro hadm)]
  rw [parseCallbackId_approve hpid]
  rw [strStarts_append]
  simp only [if_true]
  simp only [hfind]
  rw [if_neg (by simp [hstat])]
  have hup : (update_payment_status st pid "approved" actor.id none now).2 = true := by
    simp [update_payment_status, hfind]
  rw [hup]
  simp

/-- Unfolding of a stale approve-button press on an already decided
claim. -/
theorem button_callback_approve_decided
    {admins : List ℤ} {st : Store} {sess : Session} {actor : User} {pid : String}
    {payment : Payment} {msgText : String} {now : ℕ} {gw : Gateway}
    (hadm : actor.id ∈ admins) (hpid : '_' ∉ pid.data)
    (hfind : find_one st pid = some payment)
    (hstat : payment.status ≠ "pending_admin_verification") :
    button_callback admins st sess actor ("approve_" ++ pid) msgText now gw
      = (st, sess, [.editMsg ("⚠️ Payment is already " ++ payment.status ++ ".") []]) := by
  simp only [button_callback]
  rw [if_neg (not_not_intro hadm)]
  rw [parseCallbackId_approve hpid]
  rw [strStarts_append]
  simp only [if_true]
  simp only [hfind]
  rw [if_pos hstat]

/-- Unfolding of the rejection-reason reply: note the absence of any
status check on the stored record. -/
theorem handle_admin_reply_rejecting
    {admins : List ℤ} {st : Store} {sess : Session} {sender : User}
    {text : String} {now : ℕ} {gw : Gateway} {pid : String}
    {payment : Payment} {admin_id : ℤ}
    (hadm : sender.id ∈ admins)
    (hcur : sess.current_payment_id = some pid)
    (hrej : sess.rejecting_admin_id = some admin_id)
    (hfind : find_one st pid = some payment) :
    handle_admin_reply admins st sess sender text now gw
      = ((update_payment_status st pid "rejected" admin_id (some text) now).1,
         clearSession sess,
         .dbUpdate pid ::
           notify_user gw payment.user_telegram_id (rejectedUserMsg payment text)
           ++ log_to_channel gw (rejectedLogMsg admin_id pid payment text) []
           ++ [.reply "✅ Payment rejected successfully. User has been notified."]) := by
  simp only [handle_admin_reply]
  rw [if_neg (not_not_intro hadm)]
  simp only [hcur, hfind, hrej]
  have hup : (update_payment_status st pid "rejected" admin_id (some text) now).2 = true := by
    simp [update_payment_status, hfind]
  rw [hup]
  simp

theorem dupCheck_insert_same {st : Store} {id : String} {rec : Payment}
    {txn : String} (h : rec.txn_id = txn) :
    dupCheck (insertPayment st id rec) txn = true := by
  induction st with
  | nil => simp [insertPayment, dupCheck, h]
  | cons e rest ih =>
      show dupCheck (e :: (rest ++ [(id, rec)])) txn = true
      rw [dupCheck]
      by_cases he : e.2.txn_id = txn
      · rw [if_pos he]
      · rw [if_neg he]; exact ih

theorem countTxn_insert {st : Store} {id : String} {rec : Payment}
    {txn : String} (h : rec.txn_id = txn) :
    countTxn (insertPayment st id rec) txn = countTxn st txn + 1 := by
  simp [countTxn, insertPayment, List.countP_append, List.countP_cons, h]

/-! ## Claim theorems on the workflow -/

/-- Claim C10: when a non-moderator presses any approve/reject/note
button, the store and the session are left unchanged, and the denial is
delivered by replacing the text of the admin-notification message that
carried the buttons (an edit carrying no keyboard), so the original
pending-claim notice and its controls are overwritten. -/
theorem claim_C10 (admins : List ℤ) (st : Store) (sess : Session) (actor : User)
    (data msgText : String) (now : ℕ) (gw : Gateway)
    (h : actor.id ∉ admins) :
    button_callback admins st sess actor data msgText now gw
      = (st, sess, [.editMsg "❌ You are not authorized to perform this action." []]) := by
  simp only [button_callback]
  rw [if_pos h]

/-- Claim C10 witness: the non-moderator `uAlice` pressing the approve
button of a stored claim. -/
theorem claim_C10_witness :
    button_callback [7] [("p1", payApproved)] {} uAlice "approve_p1" "orig" 3 gwAll
      = ([("p1", payApproved)], {},
         [.editMsg "❌ You are not authorized to perform this action." []]) :=
  claim_C10 [7] [("p1", payApproved)] {} uAlice "approve_p1" "orig" 3 gwAll (by decide)

/-- Claim C1 (amended): on an already decided claim the approve button
path fails with an "already `<status>`" notice and leaves the store
unchanged, but the rejection-reason reply path performs NO status
check: it unconditionally overwrites the record to `rejected`
(including its `processed_by` and decision date), rather than failing. -/
theorem claim_C1_amended :
    (∀ (admins : List ℤ) (st : Store) (sess : Session) (actor : User)
       (pid : String) (payment : Payment) (msgText : String) (now : ℕ) (gw : Gateway),
       actor.id ∈ admins → '_' ∉ pid.data →
       find_one st pid = some payment →
       payment.status ≠ "pending_admin_verification" →
       button_callback admins st sess actor ("approve_" ++ pid) msgText now gw
         = (st, sess, [.editMsg ("⚠️ Payment is already " ++ payment.status ++ ".") []])) ∧
    (∀ (admins : List ℤ) (st : Store) (sess : Session) (sender : User)
       (text : String) (now : ℕ) (gw : Gateway) (pid : String)
       (payment : Payment) (admin_id : ℤ),
       sender.id ∈ admins →
       sess.current_payment_id = some pid →
       sess.rejecting_admin_id = some admin_id →
       find_one st pid = some payment →
       payment.status ≠ "pending_admin_verification" →
       text ≠ "" →
       find_one (handle_admin_reply admins st sess sender text now gw).1 pid
         = some { payment with
                  status := "rejected"
                  admin_processed_date := some now
                  processed_by := some admin_id
                  admin_note := some text }) := by
  constructor
  · intro admins st sess actor pid payment msgText now gw hadm hpid hfind hstat
    exact button_callback_approve_decided hadm hpid hfind hstat
  · intro admins st sess sender text now gw pid payment admin_id hadm hcur hrej hfind _ htext
    rw [handle_admin_reply_rejecting hadm hcur hrej hfind]
    simp only [update_payment_status]
    rw [find_one_update_one hfind]
    simp [htext]

/-- Claim C1 counterexample: a concrete already-approved record is
overwritten to `rejected` by the rejection-reason reply path, so a
transition after leaving `Pending` does NOT leave the stored record
unchanged. -/
theorem claim_C1_counterexample :
    payApproved.status = "approved" ∧
    find_one [("p1", payApproved)] "p1" = some payApproved ∧
    (find_one (handle_admin_reply [7] [("p1", payApproved)] sessRejecting mod7
        "fake receipt" 2 gwAll).1 "p1").map Payment.status = some "rejected" ∧
    (handle_admin_reply [7] [("p1", payApproved)] sessRejecting mod7
        "fake receipt" 2 gwAll).1 ≠ [("p1", payApproved)] := by
  refine ⟨rfl, ?_, ?_, ?_⟩ <;> decide

/-- Claim C1 witness: the amended theorem at a concrete decided record:
the stale approve press is refused, while the rejection-reason reply
overwrites. -/
theorem claim_C1_witness :
    button_callback [7] [("p1", payApproved)] {} mod7 ("approve_" ++ "p1") "orig" 3 gwAll
      = ([("p1", payApproved)], {},
         [.editMsg ("⚠️ Payment is already " ++ payApproved.status ++ ".") []]) ∧
    find_one (handle_admin_reply [7] [("p1", payApproved)] sessRejecting mod7
        "late reason" 4 gwAll).1 "p1"
      = some { payApproved with
               status := "rejected"
               admin_processed_date := some 4
               processed_by := some 7
               admin_note := some "late reason" } :=
  ⟨claim_C1_amended.1 [7] [("p1", payApproved)] {} mod7 "p1" payApproved "orig" 3 gwAll
      (by decide) (by decide) (by decide) (by decide),
   claim_C1_amended.2 [7] [("p1", payApproved)] sessRejecting mod7 "late reason" 4 gwAll
      "p1" payApproved 7 (by decide) (by decide) (by decide) (by decide) (by decide)
      (by decide)⟩

/-- Claim C2 (amended): under sequential execution, duplicate detection
is idempotent — the first submission stores exactly one record with the
reference, and a second submission with the same reference is refused
with the duplicate notice and leaves the store unchanged — but the
check is a `find_one` read-then-write, not a storage-level uniqueness
constraint (see the counterexample for the interleaved behaviour). -/
theorem claim_C2_amended
    (st : Store) (u1 u2 : User) (t1 t2 : String) (now1 now2 : ℕ)
    (id1 id2 : String) (shot : Option String) (af : String) (gw : Gateway)
    (hd1 hd2 txn : String) (q1 q2 : ℚ)
    (hv1 : validate t1 = .ok hd1 txn q1)
    (hv2 : validate t2 = .ok hd2 txn q2)
    (hdup : dupCheck st txn = false) :
    countTxn (handle_payment_details st u1 t1 now1 id1 shot af gw).1 txn
        = countTxn st txn + 1 ∧
    handle_payment_details (handle_payment_details st u1 t1 now1 id1 shot af gw).1
        u2 t2 now2 id2 shot af gw
      = ((handle_payment_details st u1 t1 now1 id1 shot af gw).1,
         [.reply dupMsg] ++ log_to_channel gw (dupLogMsg txn hd2 u2.id) []) := by
  have hstore : (handle_payment_details st u1 t1 now1 id1 shot af gw).1
      = insertPayment st id1
          { user_telegram_id := u1.id
            telegram_username := hd1
            user_full_name := u1.full_name
            txn_id := txn
            amount_paid := q1
            premium_duration := parse_time_period q1
            submission_date := now1
            status := "pending_admin_verification"
            processed_by_bot := false } := by
    simp [handle_payment_details, hv1, hdup]
  constructor
  · rw [hstore, countTxn_insert rfl]
  · rw [hstore]
    simp only [handle_payment_details, hv2]
    rw [dupCheck_insert_same rfl]
    simp [hstore]

/-- Claim C2 counterexample: the duplicate check and the insert are
separate storage operations; interleaving two submissions of the same
reference (both checks before either insert) stores TWO records for
one reference, which a storage-level uniqueness constraint would have
prevented. -/
theorem claim_C2_counterexample :
    payPending.txn_id = "123456789012" ∧
    countTxn (interleavedDoubleSubmit "123456789012" payPending payPending "p1" "p2")
      "123456789012" = 2 := by
  refine ⟨rfl, ?_⟩
  decide

/-- Claim C2 witness: the amended theorem at two concrete submissions
sharing the reference `123456789012`. -/
theorem claim_C2_witness :
    countTxn (handle_payment_details [] uAlice "alice 123456789012 25" 0 "p1" none
        "AF" gwAll).1 "123456789012"
      = countTxn ([] : Store) "123456789012" + 1 ∧
    handle_payment_details
        (handle_payment_details [] uAlice "alice 123456789012 25" 0 "p1" none "AF" gwAll).1
        mod7 "bob 123456789012 30" 1 "p2" none "AF" gwAll
      = ((handle_payment_details [] uAlice "alice 123456789012 25" 0 "p1" none "AF" gwAll).1,
         [.reply dupMsg] ++ log_to_channel gwAll (dupLogMsg "123456789012" "bob" mod7.id) []) :=
  claim_C2_amended [] uAlice mod7 "alice 123456789012 25" "bob 123456789012 30" 0 1
    "p1" "p2" none "AF" gwAll "alice" "bob" "123456789012" 25 30
    (by decide) (by decide) (by decide)

set_option maxHeartbeats 2000000 in
set_option maxRecDepth 10000 in
/-- Claim C4 (amended): approving a pending claim sets its status to
`approved` with the deciding moderator and decision time recorded, and
sends the submitter an activation message; but the provisioning command
`/add_premium <submitterId> <durationLabel>` is emitted in the
SUBMISSION-time admin notification, not at (nor as part of) the
approval step, whose outbound trace never contains `/add_premium`. -/
theorem claim_C4_amended :
    (∀ (admins : List ℤ) (st : Store) (sess : Session) (actor : User)
       (pid : String) (payment : Payment) (msgText : String) (now : ℕ),
       actor.id ∈ admins → '_' ∉ pid.data →
       find_one st pid = some payment →
       payment.status = "pending_admin_verification" →
       find_one (button_callback admins st sess actor ("approve_" ++ pid)
           msgText now gwAll).1 pid
         = some { payment with
                  status := "approved"
                  admin_processed_date := some now
                  processed_by := some actor.id } ∧
       Eff.send payment.user_telegram_id (approvedUserMsg payment)
         ∈ (button_callback admins st sess actor ("approve_" ++ pid)
             msgText now gwAll).2.2) ∧
    traceEmits (handle_payment_details [] uAlice "alice 123456789012 25" 0 "p1"
        none "AF" gwAll).2 (addPremiumCommand 111 "1month") = true ∧
    traceEmits (button_callback [7] [("p1", payPending)] {} mod7 "approve_p1"
        "orig" 1 gwAll).2.2 "/add_premium" = false := by
  refine ⟨?_, ?_, ?_⟩
  · intro admins st sess actor pid payment msgText now hadm hpid hfind hstat
    rw [button_callback_approve_pending hadm hpid hfind hstat]
    constructor
    · simp only [update_payment_status]
      rw [find_one_update_one hfind]
    · simp [notify_user, gwAll]
  · decide
  · decide

set_option maxHeartbeats 2000000 in
set_option maxRecDepth 10000 in
/-- Claim C4 counterexample: at the spec's own end-to-end input the
provisioning command is emitted by the submission step (before any
moderator decision), and the approval step emits no `/add_premium`
string at all — refuting "emitted at (and only as part of) the
approval step". -/
theorem claim_C4_counterexample :
    traceEmits (handle_payment_details [] uAlice "alice 123456789012 25" 0 "p1"
        none "AF" gwAll).2 (addPremiumCommand 111 "1month") = true ∧
    traceEmits (button_callback [7] [("p1", payPending)] {} mod7 "approve_p1"
        "orig" 1 gwAll).2.2 "/add_premium" = false ∧
    (find_one (button_callback [7] [("p1", payPending)] {} mod7 "approve_p1"
        "orig" 1 gwAll).1 "p1").map Payment.status = some "approved" := by
  refine ⟨?_, ?_, ?_⟩ <;> decide

/-- Claim C4 witness: the general approval conjunct at a concrete
pending record. -/
theorem claim_C4_witness :
    find_one (button_callback [7] [("p1", payPending)] {} mod7 ("approve_" ++ "p1")
        "orig" 1 gwAll).1 "p1"
      = some { payPending with
               status := "approved"
               admin_processed_date := some 1
               processed_by := some 7 } ∧
    Eff.send payPending.user_telegram_id (approvedUserMsg payPending)
      ∈ (button_callback [7] [("p1", payPending)] {} mod7 ("approve_" ++ "p1")
          "orig" 1 gwAll).2.2 :=
  claim_C4_amended.1 [7] [("p1", payPending)] {} mod7 "p1" payPending "orig" 1
    (by decide) (by decide) (by decide) (by decide)

/-- Claim C9: for both decision paths the database update is the first
effect of the trace (so it precedes every outbound notification), the
committed store does not depend on the delivery oracle (a notification
failure never rolls back the transition), and a failed user
notification is surfaced as a logged failure effect. -/
theorem claim_C9 :
    (∀ (admins : List ℤ) (st : Store) (sess : Session) (actor : User)
       (pid : String) (payment : Payment) (msgText : String) (now : ℕ)
       (gw gw2 : Gateway),
       actor.id ∈ admins → '_' ∉ pid.data →
       find_one st pid = some payment →
       payment.status = "pending_admin_verification" →
       (button_callback admins st sess actor ("approve_" ++ pid) msgText now gw).1
           = (update_payment_status st pid "approved" actor.id none now).1 ∧
       (button_callback admins st sess actor ("approve_" ++ pid) msgText now gw).2.2.head?
           = some (.dbUpdate pid) ∧
       (button_callback admins st sess actor ("approve_" ++ pid) msgText now gw2).1
           = (button_callback admins st sess actor ("approve_" ++ pid) msgText now gw).1 ∧
       (gw.sendOk payment.user_telegram_id (approvedUserMsg payment) = false →
         Eff.sendErr payment.user_telegram_id (approvedUserMsg payment)
           ∈ (button_callback admins st sess actor ("approve_" ++ pid) msgText now gw).2.2)) ∧
    (∀ (admins : List ℤ) (st : Store) (sess : Session) (sender : User)
       (text : String) (now : ℕ) (gw gw2 : Gateway) (pid : String)
       (payment : Payment) (admin_id : ℤ),
       sender.id ∈ admins →
       sess.current_payment_id = some pid →
       sess.rejecting_admin_id = some admin_id →
       find_one st pid = some payment →
       (handle_admin_reply admins st sess sender text now gw).1
           = (update_payment_status st pid "rejected" admin_id (some text) now).1 ∧
       (handle_admin_reply admins st sess sender text now gw).2.2.head?
           = some (.dbUpdate pid) ∧
       (handle_admin_reply admins st sess sender text now gw2).1
           = (handle_admin_reply admins st sess sender text now gw).1 ∧
       (gw.sendOk payment.user_telegram_id (rejectedUserMsg payment text) = false →
         Eff.sendErr payment.user_telegram_id (rejectedUserMsg payment text)
           ∈ (handle_admin_reply admins st sess sender text now gw).2.2)) := by
  constructor
  · intro admins st sess actor pid payment msgText now gw gw2 hadm hpid hfind hstat
    rw [button_callback_approve_pending hadm hpid hfind hstat,
      @button_callback_approve_pending admins st sess actor pid payment msgText now gw2 hadm hpid hfind hstat]
    refine ⟨rfl, rfl, rfl, ?_⟩
    intro hfail
    simp [notify_user, hfail]
  · intro admins st sess sender text now gw gw2 pid payment admin_id hadm hcur hrej hfind
    rw [handle_admin_reply_rejecting hadm hcur hrej hfind,
      @handle_admin_reply_rejecting admins st sess sender text now gw2 pid payment admin_id hadm hcur hrej hfind]
    refine ⟨rfl, rfl, rfl, ?_⟩
    intro hfail
    simp [notify_user, hfail]

/-- Claim C9 witness: on a failing gateway the approve path still
commits the same store as on a successful gateway, with the database
update leading the trace, and logs the delivery failure. -/
theorem claim_C9_witness :
    (button_callback [7] [("p1", payPending)] {} mod7 ("approve_" ++ "p1") "x" 1 gwNone).2.2.head?
      = some (.dbUpdate "p1") ∧
    (button_callback [7] [("p1", payPending)] {} mod7 ("approve_" ++ "p1") "x" 1 gwAll).1
      = (button_callback [7] [("p1", payPending)] {} mod7 ("approve_" ++ "p1") "x" 1 gwNone).1 ∧
    Eff.sendErr payPending.user_telegram_id (approvedUserMsg payPending)
      ∈ (button_callback [7] [("p1", payPending)] {} mod7 ("approve_" ++ "p1") "x" 1 gwNone).2.2 := by
  have h := claim_C9.1 [7] [("p1", payPending)] {} mod7 "p1" payPending "x" 1
    gwNone gwAll (by decide) (by decide) (by decide) (by decide)
  exact ⟨h.2.1, h.2.2.1, h.2.2.2 (by decide)⟩

/-- Claim C3: the submission handler is registered before the
admin-reply handler in the same dispatch group, so a moderator's
free-text reply (here with an active rejecting session pending) is
dispatched to `handle_payment_details` — treated as a new payment
submission (and refused as malformed) — and never reaches
`handle_admin_reply`. -/
theorem claim_C3_bug :
    dispatch [7] (.msg 7 "Payment proof is invalid") = some .paymentDetails ∧
    dispatch [7] (.msg 7 "Payment proof is invalid") ≠ some .adminReply ∧
    validate "Payment proof is invalid" = .malformed := by
  refine ⟨?_, ?_, ?_⟩ <;> decide

/-- Claim C5: the record is stored under a BSON ObjectId key, but the
button handler decodes the callback token to a plain string and queries
with that BSON string; the two values are never equal, so the lookup
finds nothing even though the record is present under the ObjectId. -/
theorem claim_C5_bug :
    parseCallbackId (approveToken (MongoVal.oid "65f1ab0c9d2e")) = "65f1ab0c9d2e" ∧
    bFind (bInsert [] (MongoVal.oid "65f1ab0c9d2e") payPending)
        (callbackQueryKey (approveToken (MongoVal.oid "65f1ab0c9d2e"))) = none ∧
    bFind (bInsert [] (MongoVal.oid "65f1ab0c9d2e") payPending)
        (MongoVal.oid "65f1ab0c9d2e") = some payPending ∧
    callbackQueryKey (approveToken (MongoVal.oid "65f1ab0c9d2e"))
        ≠ MongoVal.oid "65f1ab0c9d2e" := by
  refine ⟨?_, ?_, ?_, ?_⟩ <;> decide

end PaymentBot
